import Mathlib

/-!
Shallow embedding of the simplified TCP endpoint simulation (`src/main.rs`):
the segment value type with its 20-byte header encoding and checksum routine,
and the per-endpoint connection state machine with its bounded send window.

Rust `u16`/`u32` values are modelled as `Nat` with explicit truncation
(`% 65536` = `% 2^16`, `% 4294967296` = `% 2^32`) wherever the fixed width
matters; byte sequences (`Vec<u8>`, `&[u8]`) are `List Nat`.
-/

/-- `TcpSegment` (src/main.rs lines 5-14): one protocol message. -/
structure TcpSegment where
  src_port : Nat
  dst_port : Nat
  seq : Nat
  ack : Nat
  syn : Bool
  ack_flag : Bool
  payload : List Nat
deriving DecidableEq, Repr

/-- `TcpSegment::syn` constructor (lines 17-27).  Named `mkSyn` because `syn`
is already the field projection. -/
def TcpSegment.mkSyn (src dst : Nat) (seq : Nat) : TcpSegment :=
  { src_port := src, dst_port := dst, seq := seq, ack := 0,
    syn := true, ack_flag := false, payload := [] }

/-- `TcpSegment::syn_ack` constructor (lines 29-39). -/
def TcpSegment.mkSynAck (src dst : Nat) (seq ack : Nat) : TcpSegment :=
  { src_port := src, dst_port := dst, seq := seq, ack := ack,
    syn := true, ack_flag := true, payload := [] }

/-- `TcpSegment::ack` constructor (lines 41-51).  Named `mkAck` because `ack`
is already the field projection. -/
def TcpSegment.mkAck (src dst : Nat) (seq ack : Nat) : TcpSegment :=
  { src_port := src, dst_port := dst, seq := seq, ack := ack,
    syn := false, ack_flag := true, payload := [] }

/-- `TcpSegment::data` constructor (lines 53-63). -/
def TcpSegment.mkData (src dst : Nat) (seq ack : Nat) (data : List Nat) : TcpSegment :=
  { src_port := src, dst_port := dst, seq := seq, ack := ack,
    syn := false, ack_flag := true, payload := data }

/-- Big-endian bytes of a `u16` (`u16::to_be_bytes`). -/
def be16 (n : Nat) : List Nat := [n / 256 % 256, n % 256]

/-- Big-endian bytes of a `u32` (`u32::to_be_bytes`). -/
def be32 (n : Nat) : List Nat :=
  [n / 16777216 % 256, n / 65536 % 256, n / 256 % 256, n % 256]

/-- `TcpSegment::to_bytes` (lines 65-77): the fixed 20-byte header. -/
def TcpSegment.to_bytes (s : TcpSegment) : List Nat :=
  be16 s.src_port ++ be16 s.dst_port ++ be32 s.seq ++ be32 s.ack ++
    [0x50, (if s.syn then 0x02 else 0x00) ||| (if s.ack_flag then 0x10 else 0x00)] ++
    be16 64240 ++ be16 0 ++ be16 0

/-- The loop over `data.chunks_exact(2)` plus the odd-remainder byte in
`checksum` (lines 89-96): `sum` is the `u32` accumulator, each 16-bit
big-endian word is added with `wrapping_add` (mod `2^32`). -/
def sumBeWords : List Nat → Nat → Nat
  | b1 :: b2 :: rest, sum => sumBeWords rest ((sum + (b1 * 256 + b2)) % 4294967296)
  | [b], sum => (sum + b * 256) % 4294967296
  | [], sum => sum

/-- The carry-fold loop of `checksum` (lines 97-99):
`while (sum >> 16) != 0 { sum = (sum & 0xFFFF) + (sum >> 16) }`. -/
def foldCarries (sum : Nat) : Nat :=
  if sum / 65536 ≠ 0 then foldCarries (sum % 65536 + sum / 65536) else sum
termination_by sum
decreasing_by
  have h1 : sum % 65536 < 65536 := Nat.mod_lt _ (by norm_num)
  omega

/-- `checksum` (lines 87-101): `!sum as u16` on a `u32` accumulator `sum` is
`(2^32 - 1 - sum) % 2^16`. -/
def checksum (data : List Nat) : Nat :=
  (4294967295 - foldCarries (sumBeWords data 0)) % 65536

/-- An IPv4 address, Rust `[u8; 4]`. -/
structure Ipv4 where
  b0 : Nat
  b1 : Nat
  b2 : Nat
  b3 : Nat
deriving DecidableEq, Repr

/-- The four bytes of an `[u8; 4]` address in order. -/
def Ipv4.bytes (ip : Ipv4) : List Nat := [ip.b0, ip.b1, ip.b2, ip.b3]

/-- `compute_tcp_checksum` (lines 103-114): checksum over pseudo-header
(src ip, dst ip, zero, protocol 6, tcp length big-endian), the 20-byte
header, and the payload. -/
def compute_tcp_checksum (segment : TcpSegment) (src_ip dst_ip : Ipv4) : Nat :=
  let tcp_len := 20 + segment.payload.length
  checksum (src_ip.bytes ++ dst_ip.bytes ++ [0, 6] ++ be16 tcp_len ++
    segment.to_bytes ++ segment.payload)

/-- `TcpSegment::with_checksum` (lines 79-84): computes the checksum of the
segment as-is, then `insert(0, hi)` and `insert(1, lo)` put the two checksum
bytes (high then low) in front of the payload. -/
def TcpSegment.with_checksum (s : TcpSegment) (src_ip dst_ip : Ipv4) : TcpSegment :=
  let cks := compute_tcp_checksum s src_ip dst_ip
  { s with payload := cks / 256 % 256 :: cks % 256 :: s.payload }

/-- `TcpState` (lines 116-122). -/
inductive TcpState where
  | Closed
  | SynSent
  | SynReceived
  | Established
deriving DecidableEq, Repr

/-- `TcpClient` (lines 124-132): one endpoint.  The `VecDeque` send window is
a list whose head is the deque front. -/
structure TcpClient where
  port : Nat
  state : TcpState
  seq : Nat
  ack : Nat
  peer_seq : Nat
  window : List TcpSegment
  window_size : Nat
deriving DecidableEq, Repr

/-- `TcpClient::new` (lines 135-145). -/
def TcpClient.new (port : Nat) : TcpClient :=
  { port := port, state := .Closed, seq := 1000, ack := 0, peer_seq := 0,
    window := [], window_size := 5 }

/-- `TcpClient::send_syn` (lines 147-150): mutation is returned as the first
component, the produced segment as the second. -/
def TcpClient.send_syn (c : TcpClient) (dst : Nat) : TcpClient × TcpSegment :=
  ({ c with state := .SynSent }, TcpSegment.mkSyn c.port dst c.seq)

/-- `TcpClient::receive` (lines 152-198): returns the mutated endpoint and
the optional reply.  `u32` additions wrap mod `2^32`. -/
def TcpClient.receive (c : TcpClient) (seg : TcpSegment) : TcpClient × Option TcpSegment :=
  match c.state with
  | .Closed =>
    if seg.syn && !seg.ack_flag then
      ({ c with state := .SynReceived, peer_seq := seg.seq,
                ack := (seg.seq + 1) % 4294967296 },
       some (TcpSegment.mkSynAck c.port seg.src_port c.seq ((seg.seq + 1) % 4294967296)))
    else
      (c, none)
  | .SynSent =>
    if seg.syn && seg.ack_flag then
      ({ c with peer_seq := seg.seq, ack := (seg.seq + 1) % 4294967296,
                seq := (c.seq + 1) % 4294967296, state := .Established },
       some (TcpSegment.mkAck c.port seg.src_port ((c.seq + 1) % 4294967296)
         ((seg.seq + 1) % 4294967296)))
    else
      (c, none)
  | .SynReceived =>
    if seg.ack_flag && !seg.syn then
      ({ c with state := .Established }, none)
    else
      (c, none)
  | .Established =>
    if !seg.payload.isEmpty then
      ({ c with ack := (seg.seq + seg.payload.length) % 4294967296 }, none)
    else
      (c, none)

/-- `TcpClient::send_data` (lines 200-210): `msg` is the byte sequence of the
`&str` argument. -/
def TcpClient.send_data (c : TcpClient) (dst : Nat) (msg : List Nat) :
    TcpClient × Option TcpSegment :=
  if c.window.length < c.window_size then
    let seg := TcpSegment.mkData c.port dst c.seq c.ack msg
    ({ c with seq := (c.seq + msg.length) % 4294967296, window := c.window ++ [seg] },
     some seg)
  else
    (c, none)

/-- The `while let Some(front) = self.window.front()` loop of `ack_data`
(lines 213-220): pop the front while its `seq` is `≤ ack_number`. -/
def ackLoop (ack_number : Nat) : List TcpSegment → List TcpSegment
  | [] => []
  | front :: rest =>
    if front.seq ≤ ack_number then ackLoop ack_number rest else front :: rest

/-- `TcpClient::ack_data` (lines 212-221). -/
def TcpClient.ack_data (c : TcpClient) (ack_number : Nat) : TcpClient :=
  { c with window := ackLoop ack_number c.window }

/-- One public endpoint operation, for stating trace invariants. -/
inductive Op where
  | opSendSyn (dst : Nat)
  | opReceive (seg : TcpSegment)
  | opSendData (dst : Nat) (msg : List Nat)
  | opAckData (n : Nat)

/-- Apply one operation to an endpoint, keeping the mutated endpoint. -/
def applyOp (c : TcpClient) : Op → TcpClient
  | .opSendSyn dst => (c.send_syn dst).1
  | .opReceive seg => (c.receive seg).1
  | .opSendData dst msg => (c.send_data dst msg).1
  | .opAckData n => c.ack_data n

/-- Apply a sequence of operations from left to right. -/
def applyOps (c : TcpClient) : List Op → TcpClient
  | [] => c
  | op :: rest => applyOps (applyOp c op) rest

/-- The state/transition table of spec section 4.3, written row by row from
the spec's words: the matched rows act and possibly reply, every other
(state, flags) combination is a silent no-op. -/
def receiveSpecTable (c : TcpClient) (seg : TcpSegment) : TcpClient × Option TcpSegment :=
  match c.state, seg.syn, seg.ack_flag with
  | .Closed, true, false =>
    let c' := { c with peer_seq := seg.seq, ack := (seg.seq + 1) % 2 ^ 32,
                       state := .SynReceived }
    (c', some (TcpSegment.mkSynAck c.port seg.src_port c.seq c'.ack))
  | .Closed, _, _ => (c, none)
  | .SynSent, true, true =>
    let c' := { c with peer_seq := seg.seq, ack := (seg.seq + 1) % 2 ^ 32,
                       seq := (c.seq + 1) % 2 ^ 32, state := .Established }
    (c', some (TcpSegment.mkAck c.port seg.src_port c'.seq c'.ack))
  | .SynSent, _, _ => (c, none)
  | .SynReceived, false, true => ({ c with state := .Established }, none)
  | .SynReceived, _, _ => (c, none)
  | .Established, _, _ =>
    if seg.payload ≠ [] then
      ({ c with ack := (seg.seq + seg.payload.length) % 2 ^ 32 }, none)
    else
      (c, none)

/-- The spec's view of a byte sequence as 16-bit big-endian words: an odd
trailing byte is the high byte of a final word whose low byte is zero. -/
def toWordsBE : List Nat → List Nat
  | [] => []
  | [b] => [b * 256]
  | b1 :: b2 :: rest => (b1 * 256 + b2) :: toWordsBE rest

/-- The reference Internet-style checksum, from the spec's words: sum the
16-bit big-endian words in a 32-bit accumulator, fold the upper 16 bits into
the lower half until the upper half is zero, and return the complement of the
low 16 bits. -/
def checksumSpecRef (data : List Nat) : Nat :=
  65535 - foldCarries ((toWordsBE data).sum % 2 ^ 32)

/-- Delivery of an optional reply, as the driver does after `receive`: a
`some` segment is fed to the peer's `receive`, an absent reply is delivered
nowhere and leaves the endpoint unchanged. -/
def deliver (c : TcpClient) (r : Option TcpSegment) : TcpClient × Option TcpSegment :=
  match r with
  | some seg => c.receive seg
  | none => (c, none)

/-- The endpoints and replies produced by one complete three-way handshake
between two freshly created endpoints. -/
structure HandshakeResult where
  a : TcpClient
  b : TcpClient
  bMid : TcpClient
  synAckReply : Option TcpSegment
  ackReply : Option TcpSegment

/-- One pass of the handshake run by `simulate_handshake_with_timeout`
(src/main.rs lines 237-243) on two fresh endpoints: A sends SYN, the SYN is
delivered to B, B's reply is delivered to A, and A's reply is delivered to
B.  `bMid` is B at the moment A's ACK is produced. -/
def runHandshake (pa pb : Nat) : HandshakeResult :=
  let as1 := (TcpClient.new pa).send_syn pb
  let bs1 := (TcpClient.new pb).receive as1.2
  let as2 := deliver as1.1 bs1.2
  let bs2 := deliver bs1.1 as2.2
  { a := as2.1, b := bs2.1, bMid := bs1.1, synAckReply := bs1.2, ackReply := as2.2 }

/-- The accumulator loop of `checksum` adds all big-endian words mod `2^32`. -/
theorem sumBeWords_eq : ∀ (data : List Nat) (sum : Nat), sum < 4294967296 →
    sumBeWords data sum = (sum + (toWordsBE data).sum) % 4294967296
  | [], sum, h => by
    simp [sumBeWords, toWordsBE, Nat.mod_eq_of_lt h]
  | [b], sum, h => by
    simp [sumBeWords, toWordsBE]
  | b1 :: b2 :: rest, sum, h => by
    rw [show sumBeWords (b1 :: b2 :: rest) sum =
        sumBeWords rest ((sum + (b1 * 256 + b2)) % 4294967296) from rfl]
    rw [sumBeWords_eq rest _ (Nat.mod_lt _ (by norm_num))]
    rw [show toWordsBE (b1 :: b2 :: rest) = (b1 * 256 + b2) :: toWordsBE rest from rfl]
    rw [List.sum_cons, Nat.mod_add_mod, Nat.add_assoc]

/-- The carry-fold loop terminates with a value below `2^16`. -/
theorem foldCarries_lt (sum : Nat) : foldCarries sum < 65536 := by
  induction sum using foldCarries.induct with
  | case1 sum h ih => rw [foldCarries, if_pos h]; exact ih
  | case2 sum h => rw [foldCarries, if_neg h]; omega

/-- The `ack_data` loop splits the window into a fully acknowledged front run
and an untouched remainder whose front (if any) is not yet acknowledged. -/
theorem ackLoop_decomp (n : Nat) (l : List TcpSegment) :
    ∃ dropped, l = dropped ++ ackLoop n l ∧ (∀ s ∈ dropped, s.seq ≤ n) ∧
      (ackLoop n l = [] ∨ ∃ s rest, ackLoop n l = s :: rest ∧ n < s.seq) := by
  induction l with
  | nil => exact ⟨[], by simp [ackLoop]⟩
  | cons a l ih =>
    by_cases h : a.seq ≤ n
    · obtain ⟨d, hd, hall, hstop⟩ := ih
      have hl : ackLoop n (a :: l) = ackLoop n l := by simp [ackLoop, h]
      refine ⟨a :: d, ?_, ?_, ?_⟩
      · rw [hl]; simpa using hd
      · intro s hs
        rcases List.mem_cons.mp hs with h1 | h1
        · exact h1 ▸ h
        · exact hall s h1
      · rw [hl]; exact hstop
    · have hl : ackLoop n (a :: l) = a :: l := by simp [ackLoop, h]
      exact ⟨[], by simp [hl], by simp, Or.inr ⟨a, l, hl, by omega⟩⟩

/-- The `ack_data` loop never lengthens the window. -/
theorem ackLoop_length_le (n : Nat) (l : List TcpSegment) :
    (ackLoop n l).length ≤ l.length := by
  induction l with
  | nil => simp [ackLoop]
  | cons a l ih =>
    by_cases h : a.seq ≤ n <;> simp [ackLoop, h]
    omega

/-- `receive` touches neither the window nor its capacity, in any state. -/
theorem receive_window_eq (c : TcpClient) (seg : TcpSegment) :
    (c.receive seg).1.window = c.window ∧
    (c.receive seg).1.window_size = c.window_size := by
  rcases seg with ⟨sp, dp, sseq, sack, syn, ackf, payload⟩
  cases hstate : c.state <;> cases syn <;> cases ackf <;> cases payload <;>
    simp [TcpClient.receive, hstate]

/-- Every single public operation preserves the window-capacity bound. -/
theorem applyOp_window_inv (c : TcpClient) (op : Op)
    (h : c.window.length ≤ c.window_size) :
    (applyOp c op).window.length ≤ (applyOp c op).window_size ∧
    (applyOp c op).window_size = c.window_size := by
  cases op with
  | opSendSyn dst => exact ⟨h, rfl⟩
  | opReceive seg =>
    obtain ⟨h1, h2⟩ := receive_window_eq c seg
    have he : applyOp c (Op.opReceive seg) = (c.receive seg).1 := rfl
    rw [he, h1, h2]
    exact ⟨h, rfl⟩
  | opSendData dst msg =>
    by_cases hlt : c.window.length < c.window_size <;>
      simp [applyOp, TcpClient.send_data, hlt] <;> omega
  | opAckData n =>
    exact ⟨le_trans (ackLoop_length_le n c.window) h, rfl⟩

/-- Every sequence of public operations preserves the window-capacity bound. -/
theorem applyOps_window_inv (ops : List Op) : ∀ c : TcpClient,
    c.window.length ≤ c.window_size →
    (applyOps c ops).window.length ≤ (applyOps c ops).window_size ∧
    (applyOps c ops).window_size = c.window_size := by
  induction ops with
  | nil => intro c h; exact ⟨h, rfl⟩
  | cons op rest ih =>
    intro c h
    obtain ⟨h1, h2⟩ := applyOp_window_inv c op h
    obtain ⟨g1, g2⟩ := ih (applyOp c op) h1
    exact ⟨g1, g2.trans h2⟩

/-- Claim C1: `receive` implements exactly the state/transition table of spec
section 4.3 — for every current state and every incoming segment it performs
the matched row's field updates, state change, and reply, and every unmatched
(state, segment) combination is a silent no-op returning no reply (it is a
total function, never a failure). -/
theorem receive_follows_spec_table (c : TcpClient) (seg : TcpSegment) :
    c.receive seg = receiveSpecTable c seg := by
  rcases seg with ⟨sp, dp, sseq, sack, syn, ackf, payload⟩
  cases hstate : c.state <;> cases syn <;> cases ackf <;> cases payload <;>
    simp [TcpClient.receive, receiveSpecTable, hstate]

/-- Claim C2: for two freshly created endpoints with arbitrary ports `pa`,
`pb` (hence covering A = port 1000, B = port 2000), the three-way handshake
SYN, SYN-ACK, ACK leaves both endpoints Established; B's SYN-ACK carries
`ack = 1001`, each endpoint's `ack` equals the peer sequence it observed plus
one, A's `ack` equals B's `seq + 1` both at the moment of the ACK and at
completion, and B's final `ack` is 1001. -/
theorem three_way_handshake (pa pb : Nat) :
    (runHandshake pa pb).synAckReply = some (TcpSegment.mkSynAck pb pa 1000 1001) ∧
    (TcpSegment.mkSynAck pb pa 1000 1001).ack = 1001 ∧
    (runHandshake pa pb).ackReply = some (TcpSegment.mkAck pa pb 1001 1001) ∧
    (runHandshake pa pb).a.state = .Established ∧
    (runHandshake pa pb).b.state = .Established ∧
    (runHandshake pa pb).a.ack = (runHandshake pa pb).bMid.seq + 1 ∧
    (runHandshake pa pb).a.ack = (runHandshake pa pb).b.seq + 1 ∧
    (runHandshake pa pb).a.ack = (runHandshake pa pb).a.peer_seq + 1 ∧
    (runHandshake pa pb).b.ack = (runHandshake pa pb).b.peer_seq + 1 ∧
    (runHandshake pa pb).b.ack = 1001 := by
  simp [runHandshake, deliver, TcpClient.new, TcpClient.send_syn, TcpClient.receive,
    TcpSegment.mkSyn, TcpSegment.mkSynAck, TcpSegment.mkAck]

/-- Claim C3: starting from any endpoint whose window is within capacity, no
sequence of the public operations ever pushes the window length beyond
`window_size`; `send_syn`, `receive` never change the window, `ack_data` can
only shrink it, and `send_data` appends one segment exactly when the window
holds strictly fewer than `window_size` entries. -/
theorem window_never_exceeds_capacity (c : TcpClient) (ops : List Op)
    (h : c.window.length ≤ c.window_size) :
    (applyOps c ops).window.length ≤ (applyOps c ops).window_size ∧
    (applyOps c ops).window_size = c.window_size ∧
    (∀ dst, (c.send_syn dst).1.window = c.window) ∧
    (∀ seg, (c.receive seg).1.window = c.window) ∧
    (∀ n, (c.ack_data n).window.length ≤ c.window.length) ∧
    (∀ dst msg, c.window.length < c.window_size →
      (c.send_data dst msg).1.window =
        c.window ++ [TcpSegment.mkData c.port dst c.seq c.ack msg]) ∧
    (∀ dst msg, ¬ c.window.length < c.window_size →
      (c.send_data dst msg).1.window = c.window) := by
  obtain ⟨h1, h2⟩ := applyOps_window_inv ops c h
  refine ⟨h1, h2, fun dst => rfl, fun seg => (receive_window_eq c seg).1,
    fun n => ackLoop_length_le n c.window, ?_, ?_⟩
  · intro dst msg hlt; simp [TcpClient.send_data, hlt]
  · intro dst msg hlt; simp [TcpClient.send_data, hlt]

/-- Witness for claim C3 at a fresh endpoint and a concrete operation list. -/
theorem window_never_exceeds_capacity_witness :
    (applyOps (TcpClient.new 3) [Op.opSendData 4 [9], Op.opAckData 2000]).window.length ≤
      (applyOps (TcpClient.new 3) [Op.opSendData 4 [9], Op.opAckData 2000]).window_size :=
  (window_never_exceeds_capacity (TcpClient.new 3)
    [Op.opSendData 4 [9], Op.opAckData 2000] (by decide)).1

/-- Claim C4: under the window invariant, `send_data` returns no segment
exactly when the window holds `window_size` segments, in which case the
endpoint is unchanged; otherwise it returns the data segment (`syn = false`,
`ack_flag = true`) carrying the current `seq`, advances `seq` by the payload
length mod `2^32`, and appends that same segment at the back of the window. -/
theorem send_data_window_full (c : TcpClient) (dst : Nat) (msg : List Nat)
    (h : c.window.length ≤ c.window_size) :
    ((c.send_data dst msg).2 = none ↔ c.window.length = c.window_size) ∧
    (c.window.length = c.window_size → (c.send_data dst msg).1 = c) ∧
    (c.window.length < c.window_size →
      (c.send_data dst msg).2 = some (TcpSegment.mkData c.port dst c.seq c.ack msg) ∧
      (TcpSegment.mkData c.port dst c.seq c.ack msg).syn = false ∧
      (TcpSegment.mkData c.port dst c.seq c.ack msg).ack_flag = true ∧
      (TcpSegment.mkData c.port dst c.seq c.ack msg).seq = c.seq ∧
      (c.send_data dst msg).1 =
        { c with seq := (c.seq + msg.length) % 2 ^ 32,
                 window := c.window ++ [TcpSegment.mkData c.port dst c.seq c.ack msg] }) := by
  by_cases hlt : c.window.length < c.window_size
  · refine ⟨?_, ?_, ?_⟩
    · simp [TcpClient.send_data, hlt]; omega
    · intro he; omega
    · intro _; simp [TcpClient.send_data, hlt, TcpSegment.mkData]
  · refine ⟨?_, ?_, ?_⟩
    · simp [TcpClient.send_data, hlt]; omega
    · intro _; simp [TcpClient.send_data, hlt]
    · intro hc; omega

/-- Witness for claim C4 at a fresh endpoint. -/
theorem send_data_window_full_witness :
    (((TcpClient.new 5).send_data 7 [1, 2]).2 = none ↔
      (TcpClient.new 5).window.length = (TcpClient.new 5).window_size) :=
  (send_data_window_full (TcpClient.new 5) 7 [1, 2] (by decide)).1

/-- Claim C5: `ack_data n` removes exactly the maximal front run of window
entries with `seq ≤ n`, stopping at the first front entry whose `seq` exceeds
`n` (or when the window empties); the remaining entries are the untouched
rest of the window in their original order, and no other endpoint field
changes. -/
theorem ack_data_pops_acked_front (c : TcpClient) (n : Nat) :
    (∃ dropped, c.window = dropped ++ (c.ack_data n).window ∧
      (∀ s ∈ dropped, s.seq ≤ n) ∧
      ((c.ack_data n).window = [] ∨
        ∃ s rest, (c.ack_data n).window = s :: rest ∧ n < s.seq)) ∧
    (c.ack_data n).state = c.state ∧
    (c.ack_data n).seq = c.seq ∧
    (c.ack_data n).ack = c.ack ∧
    (c.ack_data n).peer_seq = c.peer_seq ∧
    (c.ack_data n).port = c.port ∧
    (c.ack_data n).window_size = c.window_size :=
  ⟨ackLoop_decomp n c.window, rfl, rfl, rfl, rfl, rfl, rfl⟩

/-- Claim C6: every sequence/acknowledgment update of the endpoint operations
is computed modulo `2^32` (the Rust `u32` wraparound semantics), and the
operations are total; in particular receiving in Closed a SYN whose `seq` is
`2^32 - 1` sets `ack = 0` instead of failing. -/
theorem seq_arith_wraps (c : TcpClient) (seg : TcpSegment) (dst : Nat) (msg : List Nat) :
    (c.state = .Closed → seg.syn = true → seg.ack_flag = false →
      (c.receive seg).1.ack = (seg.seq + 1) % 2 ^ 32) ∧
    (c.state = .SynSent → seg.syn = true → seg.ack_flag = true →
      (c.receive seg).1.ack = (seg.seq + 1) % 2 ^ 32 ∧
      (c.receive seg).1.seq = (c.seq + 1) % 2 ^ 32) ∧
    (c.state = .Established → seg.payload ≠ [] →
      (c.receive seg).1.ack = (seg.seq + seg.payload.length) % 2 ^ 32) ∧
    (c.window.length < c.window_size →
      (c.send_data dst msg).1.seq = (c.seq + msg.length) % 2 ^ 32) ∧
    ((TcpClient.new 1).receive (TcpSegment.mkSyn 2 1 (2 ^ 32 - 1))).1.ack = 0 := by
  refine ⟨?_, ?_, ?_, ?_, ?_⟩
  · intro h1 h2 h3; simp [TcpClient.receive, h1, h2, h3]
  · intro h1 h2 h3; simp [TcpClient.receive, h1, h2, h3]
  · intro h1 h2
    have : seg.payload.isEmpty = false := by
      rcases hp : seg.payload with _ | ⟨a, l⟩
      · exact absurd hp h2
      · rfl
    simp [TcpClient.receive, h1, this]
  · intro h; simp [TcpClient.send_data, h]
  · decide

/-- Witness for claim C6: the Closed-state SYN row at the wraparound point. -/
theorem seq_arith_wraps_witness :
    ((TcpClient.new 1).receive (TcpSegment.mkSyn 2 1 (2 ^ 32 - 1))).1.ack =
      (2 ^ 32 - 1 + 1) % 2 ^ 32 :=
  (seq_arith_wraps (TcpClient.new 1) (TcpSegment.mkSyn 2 1 (2 ^ 32 - 1)) 0 []).1 rfl rfl rfl

/-- Claim C7: `checksum` equals the reference Internet-style definition on
every byte sequence (being a pure function, it is deterministic on identical
input by construction), and its result is a 16-bit value. -/
theorem checksum_matches_reference (data : List Nat) :
    checksum data = checksumSpecRef data ∧ checksum data < 2 ^ 16 := by
  have hs : sumBeWords data 0 = (toWordsBE data).sum % 4294967296 := by
    simpa using sumBeWords_eq data 0 (by norm_num)
  have hf : foldCarries ((toWordsBE data).sum % 4294967296) < 65536 := foldCarries_lt _
  constructor
  · rw [checksum, checksumSpecRef, hs]
    norm_num
    omega
  · have : (4294967295 - foldCarries (sumBeWords data 0)) % 65536 < 65536 :=
      Nat.mod_lt _ (by norm_num)
    rw [checksum]
    norm_num
    omega

/-- Claim C8: `with_checksum` computes the checksum over the 12-byte
pseudo-header (source IP, destination IP, zero byte, protocol 6, and
`20 + payload length` as 16-bit big-endian), the 20-byte header, and the
original payload, then returns the segment with exactly the two checksum
bytes — high byte then low byte — put in front of the original payload. -/
theorem with_checksum_pseudo_header (seg : TcpSegment) (src_ip dst_ip : Ipv4) :
    compute_tcp_checksum seg src_ip dst_ip =
      checksum (src_ip.bytes ++ dst_ip.bytes ++ [0, 6] ++
        be16 (20 + seg.payload.length) ++ seg.to_bytes ++ seg.payload) ∧
    seg.with_checksum src_ip dst_ip =
      { seg with payload :=
          compute_tcp_checksum seg src_ip dst_ip / 256 % 256 ::
            compute_tcp_checksum seg src_ip dst_ip % 256 :: seg.payload } ∧
    compute_tcp_checksum seg src_ip dst_ip / 256 % 256 =
      compute_tcp_checksum seg src_ip dst_ip / 256 ∧
    compute_tcp_checksum seg src_ip dst_ip < 2 ^ 16 := by
  have hlt : compute_tcp_checksum seg src_ip dst_ip < 65536 := by
    rw [compute_tcp_checksum, checksum]
    exact Nat.mod_lt _ (by norm_num)
  refine ⟨rfl, rfl, by omega, by norm_num; omega⟩

/-- Claim C9: for in-range fields the 20-byte header encoding has exactly the
documented layout — ports and counters big-endian at offsets 0, 2, 4, 8, the
fixed data-offset byte `0x50` at 12, the OR-ed flag byte at 13, the constant
window 64240 big-endian at 14, and zeros at 16..19 — independent of the
payload. -/
theorem to_bytes_layout (seg : TcpSegment)
    (h1 : seg.src_port < 2 ^ 16) (h2 : seg.dst_port < 2 ^ 16)
    (h3 : seg.seq < 2 ^ 32) (h4 : seg.ack < 2 ^ 32) :
    seg.to_bytes =
      [seg.src_port / 256, seg.src_port % 256,
       seg.dst_port / 256, seg.dst_port % 256,
       seg.seq / 16777216, seg.seq / 65536 % 256, seg.seq / 256 % 256, seg.seq % 256,
       seg.ack / 16777216, seg.ack / 65536 % 256, seg.ack / 256 % 256, seg.ack % 256,
       0x50,
       (if seg.syn then 0x02 else 0x00) ||| (if seg.ack_flag then 0x10 else 0x00),
       250, 240, 0, 0, 0, 0] ∧
    seg.to_bytes.length = 20 ∧
    seg.src_port / 256 * 256 + seg.src_port % 256 = seg.src_port ∧
    seg.dst_port / 256 * 256 + seg.dst_port % 256 = seg.dst_port ∧
    (seg.seq / 16777216 * 16777216 + seg.seq / 65536 % 256 * 65536 +
      seg.seq / 256 % 256 * 256 + seg.seq % 256 = seg.seq) ∧
    (seg.ack / 16777216 * 16777216 + seg.ack / 65536 % 256 * 65536 +
      seg.ack / 256 % 256 * 256 + seg.ack % 256 = seg.ack) ∧
    250 * 256 + 240 = 64240 ∧
    (∀ p : List Nat, ({ seg with payload := p } : TcpSegment).to_bytes = seg.to_bytes) := by
  norm_num at h1 h2 h3 h4
  have e1 : seg.src_port / 256 % 256 = seg.src_port / 256 := by omega
  have e2 : seg.dst_port / 256 % 256 = seg.dst_port / 256 := by omega
  have e3 : seg.seq / 16777216 % 256 = seg.seq / 16777216 := by omega
  have e4 : seg.ack / 16777216 % 256 = seg.ack / 16777216 := by omega
  refine ⟨?_, ?_, by omega, by omega, by omega, by omega, by norm_num, fun p => rfl⟩
  · simp [TcpSegment.to_bytes, be16, be32, e1, e2, e3, e4]
  · simp [TcpSegment.to_bytes, be16, be32]

/-- Witness for claim C9 at a concrete SYN segment. -/
theorem to_bytes_layout_witness :
    (TcpSegment.mkSyn 1000 2000 1000).to_bytes.length = 20 :=
  (to_bytes_layout (TcpSegment.mkSyn 1000 2000 1000)
    (by decide) (by decide) (by decide) (by decide)).2.1

/-- Claim C10: `with_checksum` modifies only the payload — every header field
is preserved, so the 20-byte encoding (including the zero checksum
placeholder at offsets 16..17) is unchanged, and the resulting payload is the
two checksum bytes followed by the original payload, two bytes longer. -/
theorem with_checksum_frame (seg : TcpSegment) (src_ip dst_ip : Ipv4) :
    (seg.with_checksum src_ip dst_ip).src_port = seg.src_port ∧
    (seg.with_checksum src_ip dst_ip).dst_port = seg.dst_port ∧
    (seg.with_checksum src_ip dst_ip).seq = seg.seq ∧
    (seg.with_checksum src_ip dst_ip).ack = seg.ack ∧
    (seg.with_checksum src_ip dst_ip).syn = seg.syn ∧
    (seg.with_checksum src_ip dst_ip).ack_flag = seg.ack_flag ∧
    (seg.with_checksum src_ip dst_ip).to_bytes = seg.to_bytes ∧
    ((seg.with_checksum src_ip dst_ip).to_bytes.drop 16).take 2 = [0, 0] ∧
    (seg.with_checksum src_ip dst_ip).payload =
      compute_tcp_checksum seg src_ip dst_ip / 256 % 256 ::
        compute_tcp_checksum seg src_ip dst_ip % 256 :: seg.payload ∧
    (seg.with_checksum src_ip dst_ip).payload.length = seg.payload.length + 2 := by
  refine ⟨rfl, rfl, rfl, rfl, rfl, rfl, rfl, ?_, rfl, ?_⟩
  · simp [TcpSegment.to_bytes, be16, be32]
  · simp [TcpSegment.with_checksum]
